import Mathlib

/-!
Shallow embedding of the Hapuss repository: `setup_collaborators.py`
(collaborator bootstrap) and `auto_secrets.py` (secret provisioning and
permission preflight).  Network I/O is modelled by explicit response
environments; each workflow is embedded as a function from its configuration
and response environment to the list of network events it issues together
with its computed results.  Machine-level details that none of the verified
properties depend on (console output, the exact URL host, real clock time)
are elided; every branch that decides an outcome or issues a request is
kept.
-/

deriving instance DecidableEq for Except

/-- Truthiness of an optional environment-variable value, as Python
evaluates `if os.getenv(...)`: `None` (unset) and the empty string are
falsy, any other string is truthy. -/
def truthy : Option String → Bool
  | none => false
  | some s => decide (s ≠ "")

/-- One step of the comprehension filter of `setup_collaborators.py` lines
18-19: the value of the i-th environment variable if it is truthy, `none`
otherwise. -/
def envSel (f : Nat → Option String) (i : Nat) : Option String :=
  match f i with
  | some s => if s = "" then none else some s
  | none => none

/-- The filtered environment lists of `setup_collaborators.py` lines 18-19:
`[os.getenv(f"PAT{i}") for i in range(1, 21) if os.getenv(f"PAT{i}")]` and
the analogous list for `USERNAME{i}` — indices 1..20, keeping only truthy
values. -/
def envList (f : Nat → Option String) : List String :=
  (List.range' 1 20).filterMap (envSel f)

/-- The HTTP verb actually sent on the wire by `GitHubClient.call`. -/
inductive Verb where | get | post | put | patch deriving DecidableEq, Repr

/-- Method dispatch of `GitHubClient.call` (`setup_collaborators.py` lines
35-42): POST, PUT and PATCH are recognised literally and anything else
falls through to the final `else` branch, which issues a GET. -/
def methodVerb (method : String) : Verb :=
  if method = "POST" then Verb.post
  else if method = "PUT" then Verb.put
  else if method = "PATCH" then Verb.patch
  else Verb.get

/-- A repository reference inside an invitation object, as accessed by
`invite.get("repository", {}).get("full_name")`: the `full_name` field may
be absent. -/
structure RepoRef where
  full_name : Option String
deriving DecidableEq, Repr

/-- One entry of the member's `/user/repository_invitations` list.  The
`repository` sub-object and the `id` field may each be absent (Python's
`dict.get` then yields `None`). -/
structure Invite where
  repository : Option RepoRef
  id : Option Nat
deriving DecidableEq, Repr

/-- `invite.get("repository", {}).get("full_name")` (`setup_collaborators.py`
line 101): an absent repository object behaves like an empty dict, whose
`full_name` lookup yields `None`. -/
def inviteRepoName (inv : Invite) : Option String :=
  match inv.repository with
  | some r => r.full_name
  | none => none

/-- Parsed JSON body of a GitHub API response, restricted to the shapes the
collaborator workflow distinguishes: an empty object, a list of invitation
objects, or any other JSON value (`isinstance(invitations, list)` is false
for the latter two where relevant). -/
inductive ApiBody where
  | emptyMap
  | invites (l : List Invite)
  | other
deriving DecidableEq, Repr

/-- An HTTP response as observed by `GitHubClient.call`: a status code, the
raw body text (only its emptiness is inspected), and its parsed JSON value.
Responses are assumed well-formed JSON, which is the only case the verified
properties depend on. -/
structure Response where
  status : Nat
  text : String
  jsonBody : ApiBody
deriving DecidableEq, Repr

/-- Transport outcome of one request: `Except.error` models a raised
`requests` exception (timeout, connection error), `Except.ok` a delivered
response. -/
abbrev Transport := Except Unit Response

/-- Status/exception normalisation of `GitHubClient.call`
(`setup_collaborators.py` lines 44-49): a raised transport exception is
caught and becomes `none`; a delivered response yields the parsed body when
the status is one of 200/201/204 (an empty object when the body text is
empty), and `none` otherwise. -/
def GitHubClient.callResult : Transport → Option ApiBody
  | Except.error _ => none
  | Except.ok r =>
      if r.status = 200 ∨ r.status = 201 ∨ r.status = 204 then
        some (if r.text = "" then ApiBody.emptyMap else r.jsonBody)
      else none

/-- `GitHubClient.call` (`setup_collaborators.py` lines 32-49): dispatches
the method string to a verb, issues the request (the environment maps the
issued verb to its transport outcome) and normalises the result.  Returns
the verb actually issued together with the normalised result. -/
def GitHubClient.call (method : String) (env : Verb → Transport) :
    Verb × Option ApiBody :=
  let v := methodVerb method
  (v, GitHubClient.callResult (env v))

/-- C10: when `GitHubClient.call` is given a method other than POST, PUT or
PATCH — any unsupported or misspelled method string, not only GET — it
silently issues a GET request rather than rejecting the method, and its
result is the normalisation of the GET response. -/
theorem call_unknown_method_issues_get (method : String) (env : Verb → Transport)
    (hpost : method ≠ "POST") (hput : method ≠ "PUT") (hpatch : method ≠ "PATCH") :
    GitHubClient.call method env =
      (Verb.get, GitHubClient.callResult (env Verb.get)) := by
  simp [GitHubClient.call, methodVerb, hpost, hput, hpatch]

/-- Witness for C10: the misspelled method "DELETE" is dispatched as a GET. -/
theorem call_unknown_method_issues_get_witness :
    GitHubClient.call "DELETE" (fun _ => Except.error ()) = (Verb.get, none) := by
  have h := call_unknown_method_issues_get "DELETE" (fun _ => Except.error ())
    (by decide) (by decide) (by decide)
  simpa [GitHubClient.callResult] using h

/-- A network event of the collaborator bootstrap run, in program order.
`pause` is a `time.sleep`, recorded in milliseconds (the script sleeps 0.8 s
between calls and 5 s between the phases). -/
inductive CollabEvent where
  | invitePut (token : String) (user : String)
  | invListGet (token : String)
  | acceptPatch (token : String) (inviteId : Option Nat)
  | pause (ms : Nat)
deriving DecidableEq, Repr

/-- Response environment of the collaborator bootstrap: the transport
outcome of each member's invitation-list GET (indexed by the member token)
and of each accept PATCH (indexed by token and invitation id).  The invite
PUT's response only drives logging in the script and is not modelled. -/
structure CollabEnv where
  invListResp : String → Transport
  acceptResp : String → Option Nat → Transport

/-- The token carried by a collaborator network event, if any. -/
def tokenOf : CollabEvent → Option String
  | CollabEvent.invitePut t _ => some t
  | CollabEvent.invListGet t => some t
  | CollabEvent.acceptPatch t _ => some t
  | CollabEvent.pause _ => none

/-- Is this event the invite-phase PUT `/repos/.../collaborators/...`? -/
def isInviteCall : CollabEvent → Bool
  | CollabEvent.invitePut _ _ => true
  | _ => false

/-- Is this event one of the accept phase's network calls (the member's
invitation-list GET or the accept PATCH)? -/
def isAcceptCall : CollabEvent → Bool
  | CollabEvent.invListGet _ => true
  | CollabEvent.acceptPatch _ _ => true
  | _ => false

/-- Is this event the accept PATCH `/user/repository_invitations/...`? -/
def isPatchCall : CollabEvent → Bool
  | CollabEvent.acceptPatch _ _ => true
  | _ => false

/-- Final state of one member's invitation, as reported by the accept
phase: `accepted` on PATCH success, `stuck` otherwise. -/
inductive MemberStatus where | accepted | stuck deriving DecidableEq, Repr

/-- One member's accept-phase body (`setup_collaborators.py` lines 89-118):
with the member's own client, GET `/user/repository_invitations`; if the
result is falsy or not a list, report "no invitations" and `continue`
(skipping the trailing sleep); otherwise scan for the first entry whose
repository full name equals the target, PATCH exactly that invitation's id,
and mark accepted iff the PATCH result is non-`None`; in all non-`continue`
paths sleep 0.8 s at the end.  Returns the member's status and the events
issued. -/
def memberRun (target t : String) (env : CollabEnv) :
    MemberStatus × List CollabEvent :=
  match (GitHubClient.call "GET" (fun _ => env.invListResp t)).2 with
  | some (ApiBody.invites l) =>
      if l = [] then (MemberStatus.stuck, [CollabEvent.invListGet t])
      else
        match l.find? (fun inv => decide (inviteRepoName inv = some target)) with
        | some inv =>
            match (GitHubClient.call "PATCH" (fun _ => env.acceptResp t inv.id)).2 with
            | some _ =>
                (MemberStatus.accepted,
                  [CollabEvent.invListGet t, CollabEvent.acceptPatch t inv.id,
                   CollabEvent.pause 800])
            | none =>
                (MemberStatus.stuck,
                  [CollabEvent.invListGet t, CollabEvent.acceptPatch t inv.id,
                   CollabEvent.pause 800])
        | none => (MemberStatus.stuck, [CollabEvent.invListGet t, CollabEvent.pause 800])
  | some ApiBody.emptyMap => (MemberStatus.stuck, [CollabEvent.invListGet t])
  | some ApiBody.other => (MemberStatus.stuck, [CollabEvent.invListGet t])
  | none => (MemberStatus.stuck, [CollabEvent.invListGet t])

/-- One invite-phase iteration (`setup_collaborators.py` lines 62-77): a
falsy username is skipped via `continue` (no call, no sleep); otherwise the
admin client PUTs the collaborator endpoint and the loop sleeps 0.8 s. -/
def inviteStep (adminToken u : String) : List CollabEvent :=
  if u = "" then []
  else [CollabEvent.invitePut adminToken u, CollabEvent.pause 800]

/-- The invite phase: the admin client (built from `TOKENS[0]`) invites
every username in `USERS[1:]`. -/
def invitePhase (adminToken : String) (users : List String) : List CollabEvent :=
  (users.drop 1).flatMap (inviteStep adminToken)

/-- The accept phase (`setup_collaborators.py` lines 85-118): iterate over
`zip(USERS[1:], TOKENS[1:])`, skipping pairs with a falsy component, and run
each member's accept-phase body with that pair's token. -/
def acceptPhase (target : String) (users tokens : List String) (env : CollabEnv) :
    List CollabEvent :=
  ((users.drop 1).zip (tokens.drop 1)).flatMap (fun p =>
    if p.1 = "" ∨ p.2 = "" then [] else (memberRun target p.2 env).2)

/-- The full collaborator bootstrap run (`setup_collaborators.py` lines
51-124): build the admin client from `TOKENS[0]` (with an empty token list
the subscript raises `IndexError` before any network call, so no events are
issued), run the invite phase, sleep 5 s, then run the accept phase. -/
def setup_collaborators_events (target : String) (users tokens : List String)
    (env : CollabEnv) : List CollabEvent :=
  match tokens with
  | [] => []
  | t0 :: _ =>
      invitePhase t0 users ++
        CollabEvent.pause 5000 :: acceptPhase target users tokens env

/-- The repository public key object returned by
`GET /repos/{repo}/actions/secrets/public-key`: base64 key material and the
key id (`auto_secrets.py` uses fields `"key"` and `"key_id"`). -/
structure KeyData where
  key : String
  key_id : String
deriving DecidableEq, Repr

/-- A response to the public-key GET as observed by `get_public_key`: a
status code and the parsed key object. -/
structure KeyResponse where
  status : Nat
  keyData : KeyData
deriving DecidableEq, Repr

/-- The JSON payload of the secret upsert PUT (`auto_secrets.py` lines
86-89). -/
structure SecretPayload where
  encrypted_value : String
  key_id : String
deriving DecidableEq, Repr

/-- Per-secret response environment of the provisioning engine: the
transport outcome of the public-key GET and, given the payload sent, of the
upsert PUT (only its status code is inspected).  `auto_secrets.py` issues
these with bare `requests.get`/`requests.put` — no try/except — so a
transport exception propagates out of the function. -/
structure EntryEnv where
  keyResp : Except Unit KeyResponse
  putResp : SecretPayload → Except Unit Nat

/-- A network event of the secret provisioning run. -/
inductive SecEvent where
  | identityGet
  | keyGet (name : String)
  | secretPut (name : String) (payload : SecretPayload)
deriving DecidableEq, Repr

/-- `get_public_key` (`auto_secrets.py` lines 47-61): a raised transport
exception propagates (`Except.error`); a delivered response yields the
parsed key object on status 200 and `None` otherwise. -/
def get_public_key (resp : Except Unit KeyResponse) :
    Except Unit (Option KeyData) :=
  match resp with
  | Except.error e => Except.error e
  | Except.ok r => Except.ok (if r.status = 200 then some r.keyData else none)

/-- `create_or_update_secret` (`auto_secrets.py` lines 70-92), instrumented
with the list of requests it issues.  `enc` is the encryption function
`encrypt_secret` applied to its scheme (key material and plaintext in,
base64 ciphertext out).  The function fetches the public key (`None` ⇒
return `False`), encrypts, PUTs the payload, and returns
`status in [201, 204]`; a transport exception in either request propagates. -/
def create_or_update_secret (secret_name : String) (enc : String → String → String)
    (e : EntryEnv) (secret_value : String) :
    List SecEvent × Except Unit Bool :=
  match get_public_key e.keyResp with
  | Except.error err => ([SecEvent.keyGet secret_name], Except.error err)
  | Except.ok none => ([SecEvent.keyGet secret_name], Except.ok false)
  | Except.ok (some kd) =>
      let payload : SecretPayload :=
        { encrypted_value := enc kd.key secret_value, key_id := kd.key_id }
      match e.putResp payload with
      | Except.error err =>
          ([SecEvent.keyGet secret_name, SecEvent.secretPut secret_name payload],
            Except.error err)
      | Except.ok st =>
          ([SecEvent.keyGet secret_name, SecEvent.secretPut secret_name payload],
            Except.ok (decide (st = 201 ∨ st = 204)))

/-- One fold step of the `setup_secrets` loop: on a live accumulator run
the entry and count it as a success or append it to the failed-name list;
once an exception has escaped the loop (`Except.error` state) no further
entry runs. -/
def setupStep (enc : String → String → String) (env : String → EntryEnv)
    (acc : List SecEvent × Except Unit (Nat × List String))
    (p : String × String) : List SecEvent × Except Unit (Nat × List String) :=
  match acc with
  | (evts, Except.error err) => (evts, Except.error err)
  | (evts, Except.ok (cnt, failed)) =>
      match create_or_update_secret p.1 enc (env p.1) p.2 with
      | (es, Except.error err) => (evts ++ es, Except.error err)
      | (es, Except.ok true) => (evts ++ es, Except.ok (cnt + 1, failed))
      | (es, Except.ok false) => (evts ++ es, Except.ok (cnt, failed ++ [p.1]))

/-- `setup_secrets` (`auto_secrets.py` lines 97-130): iterate over the
secret name/value pairs, calling `create_or_update_secret` for each,
counting successes and collecting failed names.  An uncaught transport
exception aborts the loop (it is only caught by the top-level handler in
`__main__`), modelled by the `Except.error` result. -/
def setup_secrets (enc : String → String → String)
    (entries : List (String × String)) (env : String → EntryEnv) :
    List SecEvent × Except Unit (Nat × List String) :=
  entries.foldl (setupStep enc env) ([], Except.ok (0, []))

/-- The `TOKENS` dict of `auto_secrets.py` lines 31-35 as an ordered list
of (name, value) pairs: for i in 1..20, if `PAT{i}` is truthy, the pair
`("PAT" ++ i, value)`. -/
def collectTokens (pat : Nat → Option String) : List (String × String) :=
  (List.range' 1 20).filterMap (fun i =>
    match pat i with
    | some s => if s = "" then none else some ("PAT" ++ toString i, s)
    | none => none)

/-- Python's `str.split(", ")` on a character list: groups between
occurrences of the two-character separator `", "`; the empty string yields
the single group `[""]`, as in Python. -/
def splitCommaSpace : List Char → List (List Char)
  | [] => [[]]
  | ',' :: ' ' :: rest => [] :: splitCommaSpace rest
  | ch :: rest =>
      match splitCommaSpace rest with
      | [] => [[ch]]
      | g :: gs => (ch :: g) :: gs

/-- The scope-token list `resp.headers.get("X-OAuth-Scopes", "").split(", ")`
of `auto_secrets.py` line 150: the header (defaulted to the empty string)
split on `", "`. -/
def scopeTokens (scopesHeader : Option String) : List String :=
  (splitCommaSpace (scopesHeader.getD "").data).map String.mk

/-- `check_permissions` (`auto_secrets.py` lines 135-169): GET `/user`;
return `False` unless the status is 200; split the `X-OAuth-Scopes` header
(defaulted to the empty string) on `", "`; return `False` if any of
`repo`, `workflow` is missing from the resulting token list, `True`
otherwise. -/
def check_permissions (status : Nat) (scopesHeader : Option String) : Bool :=
  if status ≠ 200 then false
  else
    let scopes := scopeTokens scopesHeader
    let missing := ["repo", "workflow"].filter (fun s => decide (s ∉ scopes))
    if missing.isEmpty then true else false

/-- The `auto_secrets.py` entry point (module body plus `__main__`, lines
19-39 and 174-187): exit before any network call if `PAT1` is falsy or no
tokens are collected; otherwise run the preflight (one identity GET) and,
only if it returns `True`, run `setup_secrets` on the collected tokens. -/
def autoSecretsMain (pat : Nat → Option String) (idStatus : Nat)
    (scopesHeader : Option String) (enc : String → String → String)
    (env : String → EntryEnv) : List SecEvent :=
  if truthy (pat 1) = false then []
  else if collectTokens pat = [] then []
  else
    SecEvent.identityGet ::
      (if check_permissions idStatus scopesHeader then
        (setup_secrets enc (collectTokens pat) env).1
      else [])

/-- The standard base64 alphabet used by `base64.b64encode`/`b64decode`. -/
def b64Alphabet : List Char :=
  "ABCDEFGHIJKLMNOPQRSTUVWXYZabcdefghijklmnopqrstuvwxyz0123456789+/".data

/-- The alphabet character of a six-bit group. -/
def sextetChar (n : Nat) : Char := b64Alphabet.getD n 'A'

/-- The six-bit value of an alphabet character, `none` for a character
outside the alphabet. -/
def decodeSextet (c : Char) : Option Nat := b64Alphabet.findIdx? (fun a => a = c)

/-- `base64.b64encode` on a byte list: each 3-byte group becomes four
alphabet characters; a trailing 2-byte (resp. 1-byte) group becomes three
(resp. two) characters padded with `=`. -/
def b64encodeBytes : List Nat → List Char
  | a :: b :: c :: rest =>
      sextetChar (a / 4) :: sextetChar (a % 4 * 16 + b / 16) ::
        sextetChar (b % 16 * 4 + c / 64) :: sextetChar (c % 64) :: b64encodeBytes rest
  | [a, b] => [sextetChar (a / 4), sextetChar (a % 4 * 16 + b / 16),
      sextetChar (b % 16 * 4), '=']
  | [a] => [sextetChar (a / 4), sextetChar (a % 4 * 16), '=', '=']
  | [] => []

/-- `base64.b64decode` on a character list, restricted to well-padded
input: four characters at a time, with `=` padding recognised in the final
group; any character outside the alphabet, or a malformed length, decodes
to `none`. -/
def b64decodeChars : List Char → Option (List Nat)
  | w :: x :: y :: z :: rest =>
      if z = '=' then
        if y = '=' then
          match decodeSextet w, decodeSextet x with
          | some a1, some a2 =>
              if rest = [] then some [a1 * 4 + a2 / 16] else none
          | _, _ => none
        else
          match decodeSextet w, decodeSextet x, decodeSextet y with
          | some a1, some a2, some a3 =>
              if rest = [] then
                some [a1 * 4 + a2 / 16, a2 % 16 * 16 + a3 / 4]
              else none
          | _, _, _ => none
      else
        match decodeSextet w, decodeSextet x, decodeSextet y, decodeSextet z,
            b64decodeChars rest with
        | some a1, some a2, some a3, some a4, some bs =>
            some ((a1 * 4 + a2 / 16) :: (a2 % 16 * 16 + a3 / 4) ::
              (a3 % 4 * 64 + a4) :: bs)
        | _, _, _, _, _ => none
  | [] => some []
  | _ => none

/-- Byte list to base64 text (`base64.b64encode(..).decode("utf-8")`). -/
def b64encodeStr (bs : List Nat) : String := String.mk (b64encodeBytes bs)

/-- Base64 text to byte list (`base64.b64decode`). -/
def b64decodeStr (s : String) : Option (List Nat) := b64decodeChars s.data

/-- UTF-8 encoding of one character (the scalar-value byte layout of RFC
3629), used to model Python's `str.encode("utf-8")`. -/
def utf8EncodeCharNat (c : Char) : List Nat :=
  let n := c.toNat
  if n < 128 then [n]
  else if n < 2048 then [192 + n / 64, 128 + n % 64]
  else if n < 65536 then [224 + n / 4096, 128 + n / 64 % 64, 128 + n % 64]
  else [240 + n / 262144, 128 + n / 4096 % 64, 128 + n / 64 % 64, 128 + n % 64]

/-- Python's `secret_value.encode("utf-8")` as a byte list. -/
def utf8Bytes (s : String) : List Nat := s.data.flatMap utf8EncodeCharNat

/-- Modelled from the spec: the sealed-box primitive of the external PyNaCl
library (`public.SealedBox(public.PublicKey(...)).encrypt`), which is not
part of this repository.  Per the spec (§4.2, §8) sealing is randomised
anonymous public-key encryption: `seal` takes the recipient public key, the
per-call randomness and the plaintext bytes and yields ciphertext bytes;
`decrypt` with the matching private key recovers the plaintext of any
sealed ciphertext; ciphertexts of byte-valued plaintexts are byte-valued. -/
structure SealedBoxScheme where
  encrypt : List Nat → Nat → List Nat → List Nat
  decrypt : List Nat → List Nat → Option (List Nat)
  keyPair : List Nat → List Nat → Prop
  encrypt_bytes : ∀ pk r m, (∀ b ∈ m, b < 256) → ∀ b ∈ encrypt pk r m, b < 256
  encrypt_decrypt : ∀ sk pk r m, keyPair sk pk → decrypt sk (encrypt pk r m) = some m

/-- `encrypt_secret` (`auto_secrets.py` lines 63-68): base64-decode the
repository public key (invalid base64 raises in Python, modelled as
`none`), seal the UTF-8 encoded plaintext against it with the call's
randomness, and return the base64 encoding of the ciphertext. -/
def encrypt_secret (S : SealedBoxScheme) (r : Nat) (public_key : String)
    (secret_value : String) : Option String :=
  match b64decodeStr public_key with
  | none => none
  | some pkBytes => some (b64encodeStr (S.encrypt pkBytes r (utf8Bytes secret_value)))

theorem check_permissions_eq (status : Nat) (scopesHeader : Option String) :
    check_permissions status scopesHeader =
      (decide (status = 200) &&
        (decide ("repo" ∈ scopeTokens scopesHeader) &&
          decide ("workflow" ∈ scopeTokens scopesHeader))) := by
  by_cases hs : status = 200 <;>
    by_cases hr : "repo" ∈ scopeTokens scopesHeader <;>
    by_cases hw : "workflow" ∈ scopeTokens scopesHeader <;>
    simp [check_permissions, hs, hr, hw]

/-- C6: the Permission Preflight returns false when the identity call's
status is not 200; it returns false whenever `workflow` is not among the
scope tokens of the scopes header, even if `repo` is; and it returns true
only when both `repo` and `workflow` appear among the scope tokens. -/
theorem check_permissions_spec (status : Nat) (scopesHeader : Option String) :
    (status ≠ 200 → check_permissions status scopesHeader = false) ∧
    ("workflow" ∉ scopeTokens scopesHeader →
      check_permissions status scopesHeader = false) ∧
    (check_permissions status scopesHeader = true →
      status = 200 ∧ "repo" ∈ scopeTokens scopesHeader ∧
        "workflow" ∈ scopeTokens scopesHeader) := by
  have heq := check_permissions_eq status scopesHeader
  refine ⟨fun h => ?_, fun h => ?_, fun h => ?_⟩
  · rw [heq]; simp [h]
  · rw [heq]; simp [h]
  · rw [heq] at h
    simp only [Bool.and_eq_true, decide_eq_true_eq] at h
    exact ⟨h.1, h.2.1, h.2.2⟩

/-- Witness for C6: a 404 identity response fails the preflight even with
both scopes granted; a 200 response whose header omits `workflow` fails it;
a 200 response granting both passes it. -/
theorem check_permissions_spec_witness :
    check_permissions 404 (some "repo, workflow") = false ∧
    check_permissions 200 (some "repo, gist") = false ∧
    check_permissions 200 (some "repo, workflow") = true := by
  refine ⟨(check_permissions_spec 404 (some "repo, workflow")).1 (by decide),
    (check_permissions_spec 200 (some "repo, gist")).2.1 (by decide), by decide⟩

/-- Counterexample for C4: the secret upsert PUT does not treat status 200
as success.  Here the public-key fetch succeeds (status 200) and the upsert
PUT returns status 200 — a member of {200, 201, 204} — yet
`create_or_update_secret` classifies the operation as a failure. -/
def envPut200 : EntryEnv :=
  { keyResp := Except.ok { status := 200, keyData := { key := "SyBr", key_id := "kid1" } },
    putResp := fun _ => Except.ok 200 }

theorem upsert_put_status_200_fails :
    (create_or_update_secret "PAT1" (fun _ v => v) envPut200 "x").2 =
      Except.ok false := by decide

/-- C4 amended: operations issued through `GitHubClient.call` succeed iff
the status is one of {200, 201, 204}, and on success return the parsed
body, an empty mapping when the body text is empty; but the public-key GET
of the secrets workflow succeeds only on status 200, and the secret upsert
PUT is classified a success only on status 201 or 204 (status 200 counts
as failure there) and yields a boolean, not a body. -/
theorem http_success_statuses :
    (∀ r : Response, (GitHubClient.callResult (Except.ok r)).isSome = true ↔
        (r.status = 200 ∨ r.status = 201 ∨ r.status = 204)) ∧
    (∀ r : Response, (r.status = 200 ∨ r.status = 201 ∨ r.status = 204) →
        GitHubClient.callResult (Except.ok r) =
          some (if r.text = "" then ApiBody.emptyMap else r.jsonBody)) ∧
    (∀ kr : KeyResponse,
        get_public_key (Except.ok kr) =
          Except.ok (if kr.status = 200 then some kr.keyData else none)) ∧
    (∀ (secret_name : String) (enc : String → String → String) (e : EntryEnv)
        (v : String) (kr : KeyResponse) (st : Nat),
        e.keyResp = Except.ok kr → kr.status = 200 →
        e.putResp ⟨enc kr.keyData.key v, kr.keyData.key_id⟩ = Except.ok st →
        (create_or_update_secret secret_name enc e v).2 =
          Except.ok (decide (st = 201 ∨ st = 204))) := by
  refine ⟨fun r => ?_, fun r h => ?_, fun kr => rfl, ?_⟩
  · by_cases h : r.status = 200 ∨ r.status = 201 ∨ r.status = 204 <;>
      simp [GitHubClient.callResult, h]
  · simp [GitHubClient.callResult, h]
  · intro secret_name enc e v kr st hk hs hp
    unfold create_or_update_secret
    rw [hk]
    unfold get_public_key
    simp only [hs, if_true, ite_true]
    rw [hp]

/-- Witness for C4 (amended): concrete evaluations — a 204 response with an
empty body parses to the empty mapping through the client; a 404 response
is a failure; the upsert PUT with status 200 is classified a failure. -/
theorem http_success_statuses_witness :
    GitHubClient.callResult (Except.ok ⟨204, "", ApiBody.other⟩) =
      some ApiBody.emptyMap ∧
    (GitHubClient.callResult (Except.ok ⟨404, "", ApiBody.other⟩)).isSome = false ∧
    (create_or_update_secret "PAT1" (fun _ v => v) envPut200 "x").2 =
      Except.ok false := by
  refine ⟨?_, ?_, ?_⟩
  · exact http_success_statuses.2.1 ⟨204, "", ApiBody.other⟩ (by decide)
  · cases hb : (GitHubClient.callResult (Except.ok ⟨404, "", ApiBody.other⟩)).isSome with
    | false => rfl
    | true =>
        have h := (http_success_statuses.1 ⟨404, "", ApiBody.other⟩).mp hb
        simp at h
  · have h := http_success_statuses.2.2.2 "PAT1" (fun _ v => v) envPut200 "x"
      ⟨200, ⟨"SyBr", "kid1"⟩⟩ 200 rfl rfl rfl
    simpa using h

theorem setup_secrets_foldl_error (enc : String → String → String)
    (env : String → EntryEnv) (entries : List (String × String))
    (evts : List SecEvent) (err : Unit) :
    entries.foldl (setupStep enc env) (evts, Except.error err) =
      (evts, Except.error err) := by
  induction entries generalizing evts with
  | nil => rfl
  | cons p rest ih => simpa [setupStep] using ih evts

/-- Counterexample for C3: in the secret provisioning workflow a transport
exception during one secret's public-key fetch is not converted to a
per-operation failure — it propagates out of the loop (to the top-level
handler) and the remaining entries of the batch are never attempted.  Here
`PAT1`'s key fetch raises; `PAT2`, whose responses are all fine, is never
fetched. -/
def envThrow : String → EntryEnv := fun n =>
  if n = "PAT1" then
    { keyResp := Except.error (), putResp := fun _ => Except.ok 204 }
  else
    { keyResp := Except.ok ⟨200, ⟨"SyBr", "kid1"⟩⟩, putResp := fun _ => Except.ok 204 }

theorem transport_error_aborts_batch :
    setup_secrets (fun _ v => v) [("PAT1", "a"), ("PAT2", "b")] envThrow =
      ([SecEvent.keyGet "PAT1"], Except.error ()) ∧
    SecEvent.keyGet "PAT2" ∉
      (setup_secrets (fun _ v => v) [("PAT1", "a"), ("PAT2", "b")] envThrow).1 := by
  constructor
  · rfl
  · decide

/-- C3 amended: in the collaborator workflow the HTTP client catches
transport failures and converts them to the absent value, never raising
them; in the secret provisioning workflow, however, a transport failure
during a secret's public-key fetch propagates as an exception and aborts
the remaining entries of the batch (only the events up to the failing fetch
are issued and the run's result is the propagated exception). -/
theorem transport_failure_handling :
    (∀ method : String, ∀ env : Verb → Transport,
        (∀ v, env v = Except.error ()) →
        (GitHubClient.call method env).2 = none) ∧
    (∀ (enc : String → String → String) (n v : String)
        (rest : List (String × String)) (env : String → EntryEnv),
        (env n).keyResp = Except.error () →
        setup_secrets enc ((n, v) :: rest) env =
          ([SecEvent.keyGet n], Except.error ())) := by
  constructor
  · intro method env henv
    simp [GitHubClient.call, GitHubClient.callResult, henv]
  · intro enc n v rest env hthrow
    unfold setup_secrets
    rw [List.foldl_cons]
    have hstep : setupStep enc env ([], Except.ok (0, [])) (n, v) =
        ([SecEvent.keyGet n], Except.error ()) := by
      unfold setupStep create_or_update_secret get_public_key
      rw [hthrow]
      rfl
    rw [hstep, setup_secrets_foldl_error]

/-- Witness for C3 (amended): a timed-out GET through the client yields the
absent value; a thrown key fetch for the head entry aborts the batch. -/
theorem transport_failure_handling_witness :
    (GitHubClient.call "GET" (fun _ => Except.error ())).2 = none ∧
    setup_secrets (fun _ v => v) [("PAT1", "a"), ("PAT9", "z")] envThrow =
      ([SecEvent.keyGet "PAT1"], Except.error ()) := by
  constructor
  · exact transport_failure_handling.1 "GET" (fun _ => Except.error ()) (fun _ => rfl)
  · exact transport_failure_handling.2 (fun _ v => v) "PAT1" "a" [("PAT9", "z")]
      envThrow rfl

/-- A per-secret environment that raises no transport exception: the key
fetch delivers a response and every possible upsert PUT delivers a status. -/
def noThrow (e : EntryEnv) : Prop :=
  (∃ kr, e.keyResp = Except.ok kr) ∧ ∀ p, ∃ st, e.putResp p = Except.ok st

/-- Is this per-entry result a delivered success? -/
def isOkTrue : Except Unit Bool → Bool
  | Except.ok true => true
  | _ => false

/-- The per-entry classification of a provisioning run: each input entry
paired with the boolean (or propagated exception) that
`create_or_update_secret` computes for it from its own responses. -/
def outcomesList (enc : String → String → String)
    (entries : List (String × String)) (env : String → EntryEnv) :
    List (String × Except Unit Bool) :=
  entries.map (fun p => (p.1, (create_or_update_secret p.1 enc (env p.1) p.2).2))

theorem cous_noThrow (secret_name : String) (enc : String → String → String)
    (e : EntryEnv) (v : String) (h : noThrow e) :
    ∃ b evs, create_or_update_secret secret_name enc e v = (evs, Except.ok b) := by
  obtain ⟨⟨kr, hk⟩, hput⟩ := h
  unfold create_or_update_secret get_public_key
  rw [hk]
  dsimp only
  by_cases hs : kr.status = 200
  · rw [if_pos hs]
    dsimp only
    obtain ⟨st, hst⟩ := hput ⟨enc kr.keyData.key v, kr.keyData.key_id⟩
    rw [hst]
    exact ⟨_, _, rfl⟩
  · rw [if_neg hs]
    exact ⟨false, _, rfl⟩

theorem keyGet_mem_create (secret_name : String) (enc : String → String → String)
    (e : EntryEnv) (v : String) :
    SecEvent.keyGet secret_name ∈ (create_or_update_secret secret_name enc e v).1 := by
  unfold create_or_update_secret get_public_key
  rcases hk : e.keyResp with err | kr
  · simp
  · dsimp only
    by_cases hs : kr.status = 200
    · rw [if_pos hs]
      dsimp only
      rcases hp : e.putResp ⟨enc kr.keyData.key v, kr.keyData.key_id⟩ with _ | st <;>
        simp
    · rw [if_neg hs]
      simp

theorem setup_secrets_foldl_ok (enc : String → String → String)
    (env : String → EntryEnv) (entries : List (String × String))
    (h : ∀ p ∈ entries, noThrow (env p.1)) :
    ∀ evts cnt failed,
      entries.foldl (setupStep enc env) (evts, Except.ok (cnt, failed)) =
        (evts ++ entries.flatMap
            (fun p => (create_or_update_secret p.1 enc (env p.1) p.2).1),
          Except.ok
            (cnt + (outcomesList enc entries env).countP (fun q => isOkTrue q.2),
              failed ++ ((outcomesList enc entries env).filter
                (fun q => !isOkTrue q.2)).map Prod.fst)) := by
  induction entries with
  | nil => intro evts cnt failed; simp [outcomesList]
  | cons p rest ih =>
    intro evts cnt failed
    have hp := h p (List.mem_cons_self p rest)
    have hrest : ∀ q ∈ rest, noThrow (env q.1) :=
      fun q hq => h q (List.mem_cons_of_mem _ hq)
    obtain ⟨b, evs, heq⟩ := cous_noThrow p.1 enc (env p.1) p.2 hp
    rw [List.foldl_cons]
    have hstep : setupStep enc env (evts, Except.ok (cnt, failed)) p =
        (evts ++ evs,
          Except.ok (if b then (cnt + 1, failed) else (cnt, failed ++ [p.1]))) := by
      cases b <;> simp [setupStep, heq]
    rw [hstep]
    cases b with
    | false =>
        rw [if_neg (by simp), ih hrest]
        simp [outcomesList, heq, isOkTrue, List.append_assoc]
    | true =>
        rw [if_pos rfl, ih hrest]
        simp [outcomesList, heq, isOkTrue, List.append_assoc]
        omega

/-- Counterexample for C5: the per-entry attempt/classification guarantee
is not unconditional.  When one entry's public-key fetch raises a transport
exception (`PAT3` here), the batch aborts: the following entry (`PAT4`) is
never attempted and the run's result is the propagated exception — no
boolean outcome is produced for either name. -/
def envThrowKey : String → EntryEnv := fun n =>
  if n = "PAT3" then
    { keyResp := Except.error (), putResp := fun _ => Except.ok 201 }
  else
    { keyResp := Except.ok ⟨200, ⟨"SyBr", "kidX"⟩⟩, putResp := fun _ => Except.ok 201 }

theorem provisioning_attempts_counterexample :
    setup_secrets (fun _ v => v) [("PAT3", "c"), ("PAT4", "d")] envThrowKey =
      ([SecEvent.keyGet "PAT3"], Except.error ()) ∧
    SecEvent.keyGet "PAT4" ∉
      (setup_secrets (fun _ v => v) [("PAT3", "c"), ("PAT4", "d")] envThrowKey).1 := by
  constructor
  · rfl
  · decide

/-- C5 amended: provided every response arrives (no transport exception —
with one, the batch aborts and later entries are unattempted, as the
counterexample shows), secret provisioning attempts every entry exactly
once, in order, classifying each with exactly one boolean: the outcome
list has exactly the input names in input order, every outcome is a
delivered boolean, the run's result counts the successes and lists exactly
the failed names, every entry's key fetch is issued, and an entry whose
public-key fetch returns a non-200 status is classified failed — without
affecting any other entry, since each entry's outcome is computed from
that entry's own responses only. -/
theorem provisioning_per_entry (enc : String → String → String)
    (entries : List (String × String)) (env : String → EntryEnv)
    (h : ∀ p ∈ entries, noThrow (env p.1)) :
    ((outcomesList enc entries env).map Prod.fst = entries.map Prod.fst) ∧
    (∀ q ∈ outcomesList enc entries env, ∃ b : Bool, q.2 = Except.ok b) ∧
    ((setup_secrets enc entries env).2 =
      Except.ok ((outcomesList enc entries env).countP (fun q => isOkTrue q.2),
        ((outcomesList enc entries env).filter
          (fun q => !isOkTrue q.2)).map Prod.fst)) ∧
    (∀ p ∈ entries, SecEvent.keyGet p.1 ∈ (setup_secrets enc entries env).1) ∧
    (∀ k, ∀ hk : k < entries.length,
      (outcomesList enc entries env).get ⟨k, by simpa [outcomesList] using hk⟩ =
        ((entries.get ⟨k, hk⟩).1,
          (create_or_update_secret (entries.get ⟨k, hk⟩).1 enc
            (env (entries.get ⟨k, hk⟩).1) (entries.get ⟨k, hk⟩).2).2)) ∧
    (∀ q ∈ outcomesList enc entries env, ∀ kr, (env q.1).keyResp = Except.ok kr →
      kr.status ≠ 200 → q.2 = Except.ok false) := by
  have hfold := setup_secrets_foldl_ok enc env entries h [] 0 []
  refine ⟨?_, ?_, ?_, ?_, ?_, ?_⟩
  · simp [outcomesList]
  · intro q hq
    rw [outcomesList, List.mem_map] at hq
    obtain ⟨p, hp, rfl⟩ := hq
    obtain ⟨b, evs, heq⟩ := cous_noThrow p.1 enc (env p.1) p.2 (h p hp)
    exact ⟨b, by rw [heq]⟩
  · rw [setup_secrets, hfold]
    simp
  · intro p hp
    rw [setup_secrets, hfold]
    simp only [List.nil_append]
    rw [List.mem_flatMap]
    exact ⟨p, hp, keyGet_mem_create p.1 enc (env p.1) p.2⟩
  · intro k hk
    simp [outcomesList]
  · intro q hq kr hkr hst
    rw [outcomesList, List.mem_map] at hq
    obtain ⟨p, hp, rfl⟩ := hq
    unfold create_or_update_secret get_public_key
    rw [hkr]
    dsimp only
    rw [if_neg hst]

/-- Concrete provisioning scenario for the C5 witness: `PAT1`'s key fetch
and upsert succeed; `PAT2`'s key fetch returns 404. -/
def envKey404 : String → EntryEnv := fun n =>
  if n = "PAT2" then
    { keyResp := Except.ok ⟨404, ⟨"SyBr", "k2"⟩⟩, putResp := fun _ => Except.ok 204 }
  else
    { keyResp := Except.ok ⟨200, ⟨"SyBr", "k1"⟩⟩, putResp := fun _ => Except.ok 204 }

/-- Witness for C5: with two configured secrets where `PAT2`'s key fetch
returns 404, the run reports one success and exactly `PAT2` failed, and
both entries' key fetches are issued. -/
theorem provisioning_per_entry_witness :
    (setup_secrets (fun _ v => v) [("PAT1", "a"), ("PAT2", "b")] envKey404).2 =
      Except.ok (1, ["PAT2"]) ∧
    SecEvent.keyGet "PAT1" ∈
      (setup_secrets (fun _ v => v) [("PAT1", "a"), ("PAT2", "b")] envKey404).1 ∧
    SecEvent.keyGet "PAT2" ∈
      (setup_secrets (fun _ v => v) [("PAT1", "a"), ("PAT2", "b")] envKey404).1 := by
  have hnt : ∀ p ∈ [("PAT1", "a"), ("PAT2", "b")], noThrow (envKey404 p.1) := by
    intro p hp
    simp only [List.mem_cons, List.mem_singleton] at hp
    rcases hp with rfl | hp
    · exact ⟨⟨_, rfl⟩, fun q => ⟨204, rfl⟩⟩
    · rcases hp with rfl | hp
      · exact ⟨⟨_, rfl⟩, fun q => ⟨204, rfl⟩⟩
      · cases hp
  have h := provisioning_per_entry (fun _ v => v) [("PAT1", "a"), ("PAT2", "b")]
    envKey404 hnt
  refine ⟨h.2.2.1.trans (by decide), ?_, ?_⟩
  · exact h.2.2.2.1 ("PAT1", "a") (by decide)
  · exact h.2.2.2.1 ("PAT2", "b") (by decide)

theorem memberRun_events (target t : String) (env : CollabEnv) :
    ∀ e ∈ (memberRun target t env).2,
      isInviteCall e = false ∧
        (e = CollabEvent.pause 800 ∨ tokenOf e = some t) := by
  intro e he
  unfold memberRun at he
  repeat' split at he
  all_goals fin_cases he <;> simp [isInviteCall, tokenOf]

theorem invitePhase_events (t0 : String) (users : List String) :
    ∀ e ∈ invitePhase t0 users,
      (∃ u, e = CollabEvent.invitePut t0 u) ∨ e = CollabEvent.pause 800 := by
  intro e he
  rw [invitePhase, List.mem_flatMap] at he
  obtain ⟨u, hu, he⟩ := he
  unfold inviteStep at he
  split at he
  · cases he
  · fin_cases he
    · exact Or.inl ⟨u, rfl⟩
    · exact Or.inr rfl

theorem invitePhase_no_accept (t0 : String) (users : List String) :
    ∀ e ∈ invitePhase t0 users, isAcceptCall e = false := by
  intro e he
  rcases invitePhase_events t0 users e he with ⟨u, rfl⟩ | rfl <;> rfl

theorem acceptPhase_no_invite (target : String) (users tokens : List String)
    (env : CollabEnv) :
    ∀ e ∈ acceptPhase target users tokens env, isInviteCall e = false := by
  intro e he
  rw [acceptPhase, List.mem_flatMap] at he
  obtain ⟨p, hp, he⟩ := he
  split at he
  · cases he
  · exact (memberRun_events target p.2 env e he).1

/-- C7: with at least one configured token (otherwise the run crashes before
any network call and issues nothing), there is a position k in the
collaborator bootstrap's event trace holding the fixed 5-second settling
wait, such that every invite-phase PUT occurs strictly before k and every
accept-phase call (invitation-list GET or accept PATCH) occurs strictly
after k: the accept phase never starts before the invite phase has
completed for all members. -/
theorem two_phase_ordering (target : String) (users tokens : List String)
    (env : CollabEnv) (t0 : String) (ts : List String) (htok : tokens = t0 :: ts) :
    ∃ k,
      (setup_collaborators_events target users tokens env)[k]? =
        some (CollabEvent.pause 5000) ∧
      (∀ i, ∀ hi : i < (setup_collaborators_events target users tokens env).length,
        isInviteCall ((setup_collaborators_events target users tokens env).get ⟨i, hi⟩) =
          true → i < k) ∧
      (∀ j, ∀ hj : j < (setup_collaborators_events target users tokens env).length,
        isAcceptCall ((setup_collaborators_events target users tokens env).get ⟨j, hj⟩) =
          true → k < j) := by
  subst htok
  have hev : setup_collaborators_events target users (t0 :: ts) env =
      invitePhase t0 users ++
        CollabEvent.pause 5000 :: acceptPhase target users (t0 :: ts) env := rfl
  refine ⟨(invitePhase t0 users).length, ?_, ?_, ?_⟩
  · rw [hev, List.getElem?_append_right le_rfl]
    simp
  · intro i hi hinv
    by_contra hcon
    push_neg at hcon
    set a := (setup_collaborators_events target users (t0 :: ts) env).get ⟨i, hi⟩
      with ha
    have hsome : (setup_collaborators_events target users (t0 :: ts) env)[i]? =
        some a := by
      rw [ha, List.get_eq_getElem]
      exact List.getElem?_eq_getElem hi
    rw [hev, List.getElem?_append_right hcon] at hsome
    have hmem : a ∈ CollabEvent.pause 5000 :: acceptPhase target users (t0 :: ts) env :=
      List.getElem?_mem hsome
    rcases List.mem_cons.mp hmem with heq | hmem2
    · rw [heq] at hinv
      cases hinv
    · rw [acceptPhase_no_invite target users (t0 :: ts) env a hmem2] at hinv
      cases hinv
  · intro j hj hacc
    rcases Nat.lt_trichotomy j (invitePhase t0 users).length with hlt | heq | hgt
    · set a := (setup_collaborators_events target users (t0 :: ts) env).get ⟨j, hj⟩
        with ha
      have hsome : (setup_collaborators_events target users (t0 :: ts) env)[j]? =
          some a := by
        rw [ha, List.get_eq_getElem]
        exact List.getElem?_eq_getElem hj
      rw [hev, List.getElem?_append, if_pos hlt] at hsome
      have hmem : a ∈ invitePhase t0 users := List.getElem?_mem hsome
      rw [invitePhase_no_accept t0 users a hmem] at hacc
      cases hacc
    · set a := (setup_collaborators_events target users (t0 :: ts) env).get ⟨j, hj⟩
        with ha
      have hsome : (setup_collaborators_events target users (t0 :: ts) env)[j]? =
          some a := by
        rw [ha, List.get_eq_getElem]
        exact List.getElem?_eq_getElem hj
      rw [hev, List.getElem?_append_right (le_of_eq heq.symm), heq] at hsome
      simp only [Nat.sub_self, List.getElem?_cons_zero, Option.some.injEq] at hsome
      rw [← hsome] at hacc
      cases hacc
    · exact hgt

/-- Environment used by the collaborator-side witnesses: the member's
invitation list contains one invitation for the target repository and the
accept PATCH succeeds with an empty 204 body. -/
def cenvW : CollabEnv :=
  { invListResp := fun _ =>
      Except.ok ⟨200, "x", ApiBody.invites [⟨some ⟨some "o/r"⟩, some 9⟩]⟩,
    acceptResp := fun _ _ => Except.ok ⟨204, "", ApiBody.emptyMap⟩ }

/-- Witness for C7: the ordering property instantiated at a concrete
two-member run. -/
theorem two_phase_ordering_witness :
    ∃ k,
      (setup_collaborators_events "o/r" ["adm", "bob"] ["t0", "t1"] cenvW)[k]? =
        some (CollabEvent.pause 5000) ∧
      (∀ i, ∀ hi : i <
          (setup_collaborators_events "o/r" ["adm", "bob"] ["t0", "t1"] cenvW).length,
        isInviteCall ((setup_collaborators_events "o/r" ["adm", "bob"] ["t0", "t1"]
          cenvW).get ⟨i, hi⟩) = true → i < k) ∧
      (∀ j, ∀ hj : j <
          (setup_collaborators_events "o/r" ["adm", "bob"] ["t0", "t1"] cenvW).length,
        isAcceptCall ((setup_collaborators_events "o/r" ["adm", "bob"] ["t0", "t1"]
          cenvW).get ⟨j, hj⟩) = true → k < j) :=
  two_phase_ordering "o/r" ["adm", "bob"] ["t0", "t1"] cenvW "t0" ["t1"] rfl

theorem envSel_isSome (f : Nat → Option String) (i : Nat) :
    (envSel f i).isSome = truthy (f i) := by
  unfold envSel truthy
  cases f i with
  | none => rfl
  | some s => by_cases h : s = "" <;> simp [h]

theorem envSel_eq_some (f : Nat → Option String) (i : Nat) (s : String)
    (h : envSel f i = some s) : f i = some s := by
  unfold envSel at h
  cases hf : f i with
  | none => rw [hf] at h; cases h
  | some s2 =>
      rw [hf] at h
      dsimp only at h
      by_cases h2 : s2 = ""
      · rw [if_pos h2] at h; cases h
      · rw [if_neg h2] at h
        cases h
        rfl

theorem zip_envSel_aligned (username pat : Nat → Option String)
    (hAlign : ∀ i, truthy (username i) = truthy (pat i)) :
    ∀ (l : List Nat) (p : String × String),
      p ∈ (l.filterMap (envSel username)).zip (l.filterMap (envSel pat)) →
        ∃ i ∈ l, username i = some p.1 ∧ pat i = some p.2 := by
  intro l
  induction l with
  | nil => intro p hp; simp at hp
  | cons i rest ih =>
      intro p hp
      have hiso : (envSel username i).isSome = (envSel pat i).isSome := by
        rw [envSel_isSome, envSel_isSome, hAlign i]
      rcases hu : envSel username i with _ | su <;>
        rcases hv : envSel pat i with _ | sv
      · rw [List.filterMap_cons_none hu, List.filterMap_cons_none hv] at hp
        obtain ⟨j, hj, hjp⟩ := ih p hp
        exact ⟨j, List.mem_cons_of_mem _ hj, hjp⟩
      · rw [hu, hv] at hiso; cases hiso
      · rw [hu, hv] at hiso; cases hiso
      · rw [List.filterMap_cons_some hu, List.filterMap_cons_some hv] at hp
        rcases List.mem_cons.mp hp with heq | hmem
        · subst heq
          exact ⟨i, List.mem_cons_self i rest,
            envSel_eq_some username i su hu, envSel_eq_some pat i sv hv⟩
        · obtain ⟨j, hj, hjp⟩ := ih p hmem
          exact ⟨j, List.mem_cons_of_mem _ hj, hjp⟩

theorem zip_drop_one {α β : Type} (l : List α) (l2 : List β) :
    (l.drop 1).zip (l2.drop 1) = (l.zip l2).drop 1 := by
  cases l <;> cases l2 <;> simp

/-- C1 amended: every invite-phase PUT is issued with the first configured
credential `TOKENS[0]` (the admin client's token), and — provided the
member usernames and tokens are configured at matching indices
(`USERNAME{i}` truthy exactly when `PAT{i}` is) — every accept-phase pair
processes a member with a credential configured at that member's own index,
and all of that member's accept-phase calls carry exactly that credential.
With mismatched configuration indices the `zip` pairs a member with another
principal's credential (see the counterexample). -/
theorem collaborator_credential_usage (username pat : Nat → Option String)
    (target : String) (env : CollabEnv)
    (hAlign : ∀ i, truthy (username i) = truthy (pat i)) :
    (∀ e ∈ setup_collaborators_events target (envList username) (envList pat) env,
        isInviteCall e = true → tokenOf e = (envList pat).head?) ∧
    (∀ p ∈ ((envList username).drop 1).zip ((envList pat).drop 1),
        (∃ i, i ∈ List.range' 1 20 ∧ username i = some p.1 ∧ pat i = some p.2) ∧
        (∀ e ∈ (memberRun target p.2 env).2,
          isInviteCall e = false ∧
            (e = CollabEvent.pause 800 ∨ tokenOf e = some p.2))) := by
  constructor
  · intro e he hinv
    cases htok : envList pat with
    | nil =>
        rw [htok] at he
        cases he
    | cons t0 ts =>
        rw [htok] at he
        rcases List.mem_append.mp he with h1 | h2
        · rcases invitePhase_events t0 (envList username) e h1 with ⟨u, rfl⟩ | rfl
          · rfl
          · cases hinv
        · rcases List.mem_cons.mp h2 with rfl | h3
          · cases hinv
          · rw [acceptPhase_no_invite target (envList username) (t0 :: ts) env e h3]
              at hinv
            cases hinv
  · intro p hp
    constructor
    · have hp2 : p ∈ (envList username).zip (envList pat) := by
        rw [zip_drop_one] at hp
        exact List.mem_of_mem_drop hp
      obtain ⟨i, hi, hup⟩ :=
        zip_envSel_aligned username pat hAlign (List.range' 1 20) p hp2
      exact ⟨i, hi, hup⟩
    · intro e he
      exact memberRun_events target p.2 env e he

/-- Aligned two-principal configuration for the C1 witness: index 1 is the
admin (`adm`/`t0`), index 2 the member (`bob`/`t1`). -/
def uEnvW : Nat → Option String := fun i =>
  if i = 1 then some "adm" else if i = 2 then some "bob" else none

def pEnvW : Nat → Option String := fun i =>
  if i = 1 then some "t0" else if i = 2 then some "t1" else none

/-- Witness for C1 (amended): in the aligned configuration the accept-phase
pair for `bob` carries a credential configured at `bob`'s own index, and
the invite PUT of the run uses the first configured token. -/
theorem collaborator_credential_usage_witness :
    (∃ i, i ∈ List.range' 1 20 ∧ uEnvW i = some "bob" ∧ pEnvW i = some "t1") ∧
    CollabEvent.invitePut "t0" "bob" ∈
      setup_collaborators_events "o/r" (envList uEnvW) (envList pEnvW) cenvW := by
  have halign : ∀ i, truthy (uEnvW i) = truthy (pEnvW i) := by
    intro i
    by_cases h1 : i = 1
    · subst h1; rfl
    · by_cases h2 : i = 2
      · subst h2; rfl
      · simp [uEnvW, pEnvW, h1, h2]
  have h := collaborator_credential_usage uEnvW pEnvW "o/r" cenvW halign
  exact ⟨(h.2 ("bob", "t1") (by decide)).1, by decide⟩

/-- Misaligned configuration refuting C1 as stated: usernames are
configured at indices 1..3 (`alice`, `bob`, `carol`) but tokens only at
indices 1 and 3 (`tokA`, `tokC`).  The zip of `USERS[1:]` with `TOKENS[1:]`
then pairs member `bob` with `tokC` — the credential configured for
`carol` — and the accept PATCH for that pair is issued with `tokC`. -/
def uEnvBad : Nat → Option String := fun i =>
  if i = 1 then some "alice"
  else if i = 2 then some "bob"
  else if i = 3 then some "carol" else none

def pEnvBad : Nat → Option String := fun i =>
  if i = 1 then some "tokA" else if i = 3 then some "tokC" else none

/-- Counterexample for C1: with the misaligned configuration the accept
phase processes the pair (`bob`, `tokC`), although no configuration index
holds both `bob` and `tokC` — the invitation-accepting PATCH for member
`bob` is issued with another principal's credential, and the trace indeed
contains that PATCH under `tokC`. -/
theorem collaborator_credential_usage_counterexample :
    ("bob", "tokC") ∈ ((envList uEnvBad).drop 1).zip ((envList pEnvBad).drop 1) ∧
    (¬ ∃ i, i ∈ List.range' 1 20 ∧ uEnvBad i = some "bob" ∧
      pEnvBad i = some "tokC") ∧
    CollabEvent.acceptPatch "tokC" (some 9) ∈
      setup_collaborators_events "o/r" (envList uEnvBad) (envList pEnvBad) cenvW := by
  refine ⟨by decide, ?_, by decide⟩
  have hall : ∀ i ∈ List.range' 1 20,
      ¬ (uEnvBad i = some "bob" ∧ pEnvBad i = some "tokC") := by decide
  rintro ⟨i, hi, hu, hp⟩
  exact hall i hi ⟨hu, hp⟩

/-- C2 amended: the secret provisioning entry point aborts before any
network call when the admin credential `PAT1` is missing or no tokens are
collected, and when the preflight fails the only call ever issued is the
preflight's own identity GET — no workflow operation runs.  The
collaborator bootstrap, however, performs no preflight at all: its very
first event is already a workflow network operation (the first invite PUT),
whatever the admin credential's scopes are. -/
theorem preflight_gating (pat : Nat → Option String) (idStatus : Nat)
    (scopesHeader : Option String) (enc : String → String → String)
    (env : String → EntryEnv) (target : String) (cenv : CollabEnv) :
    (truthy (pat 1) = false →
      autoSecretsMain pat idStatus scopesHeader enc env = []) ∧
    (collectTokens pat = [] →
      autoSecretsMain pat idStatus scopesHeader enc env = []) ∧
    (check_permissions idStatus scopesHeader = false →
      ∀ e ∈ autoSecretsMain pat idStatus scopesHeader enc env,
        e = SecEvent.identityGet) ∧
    (∀ (a u : String) (us : List String) (t0 : String) (ts : List String),
      u ≠ "" →
      (setup_collaborators_events target (a :: u :: us) (t0 :: ts) cenv).head? =
        some (CollabEvent.invitePut t0 u)) := by
  refine ⟨fun h => ?_, fun h => ?_, fun h e he => ?_, fun a u us t0 ts hu => ?_⟩
  · simp [autoSecretsMain, h]
  · by_cases h1 : truthy (pat 1) = false
    · simp [autoSecretsMain, h1]
    · simp only [Bool.not_eq_false] at h1
      simp [autoSecretsMain, h1, h]
  · by_cases h1 : truthy (pat 1) = false
    · simp [autoSecretsMain, h1] at he
    · simp only [Bool.not_eq_false] at h1
      by_cases h2 : collectTokens pat = []
      · simp [autoSecretsMain, h1, h2] at he
      · simp only [autoSecretsMain, h1, Bool.true_eq_false, if_false, h2, if_neg h2,
          h, List.mem_cons, List.not_mem_nil, or_false] at he
        rcases he with rfl | he
        · rfl
        · simp at he
  · show (invitePhase t0 (a :: u :: us) ++
      CollabEvent.pause 5000 :: acceptPhase target (a :: u :: us) (t0 :: ts)
        cenv).head? = _
    rw [invitePhase]
    simp only [List.drop_succ_cons, List.drop_zero, List.flatMap_cons]
    rw [inviteStep, if_neg hu]
    rfl

/-- Witness for C2 (amended): with no environment configured the secrets
run issues nothing; with a failing preflight it issues nothing beyond (at
most) the identity GET — concretely, an insufficient-scope header yields the
bare identity call; and a concrete collaborator run's first event is an
invite PUT, issued with no preflight before it. -/
theorem preflight_gating_witness :
    autoSecretsMain (fun _ => none) 200 (some "repo, workflow") (fun _ v => v)
      envKey404 = [] ∧
    (∀ e ∈ autoSecretsMain pEnvW 200 (some "gist") (fun _ v => v) envKey404,
      e = SecEvent.identityGet) ∧
    (setup_collaborators_events "o/r" ["adm", "bob"] ["t0", "t1"] cenvW).head? =
      some (CollabEvent.invitePut "t0" "bob") := by
  refine ⟨?_, ?_, ?_⟩
  · exact (preflight_gating (fun _ => none) 200 (some "repo, workflow")
      (fun _ v => v) envKey404 "o/r" cenvW).1 rfl
  · exact (preflight_gating pEnvW 200 (some "gist") (fun _ v => v) envKey404
      "o/r" cenvW).2.2.1 (by decide)
  · exact (preflight_gating pEnvW 200 (some "gist") (fun _ v => v) envKey404
      "o/r" cenvW).2.2.2 "adm" "bob" [] "t0" ["t1"] (by decide)

/-- Counterexample for C2: the collaborator bootstrap workflow is not gated
by the Permission Preflight.  With an admin credential whose scopes header
(`gist`) makes the preflight return false, the collaborator run still
executes: its first event is already the invite PUT — no abort, and no
preflight call precedes any workflow operation. -/
theorem preflight_gating_counterexample :
    check_permissions 200 (some "gist") = false ∧
    (setup_collaborators_events "o/r" ["adm", "bob"] ["t0", "t1"] cenvW).head? =
      some (CollabEvent.invitePut "t0" "bob") := by
  constructor
  · decide
  · decide

/-- The member's usable invitation list, as the accept phase sees it: the
normalised result of the invitation-list GET when it is a non-empty list;
`none` when the call failed, returned a non-list, or returned an empty list
(all of which the script treats as "no invitations found"). -/
def fetchedInvites (env : CollabEnv) (t : String) : Option (List Invite) :=
  match (GitHubClient.call "GET" (fun _ => env.invListResp t)).2 with
  | some (ApiBody.invites l) => if l = [] then none else some l
  | _ => none

/-- C8: in the accept phase each member's invitation list is fetched
exactly once, and at most one accept PATCH is ever issued (no retry or
re-poll).  If the fetched list has an entry whose repository full name
equals the target, exactly the first such invitation is PATCHed, and the
member is marked accepted precisely when the PATCH result is non-absent
(stuck on PATCH failure).  If the fetch fails, returns a non-list, returns
an empty list, or contains no matching entry, the member is marked stuck
and no PATCH is issued. -/
theorem accept_phase_member_spec (target t : String) (env : CollabEnv) :
    ((memberRun target t env).2.countP
        (fun e => decide (e = CollabEvent.invListGet t)) = 1) ∧
    ((memberRun target t env).2.countP isPatchCall ≤ 1) ∧
    (∀ l inv, fetchedInvites env t = some l →
      l.find? (fun x => decide (inviteRepoName x = some target)) = some inv →
      CollabEvent.acceptPatch t inv.id ∈ (memberRun target t env).2 ∧
        ((memberRun target t env).1 = MemberStatus.accepted ↔
          (GitHubClient.call "PATCH" (fun _ => env.acceptResp t inv.id)).2 ≠ none)) ∧
    (fetchedInvites env t = none →
      (memberRun target t env).1 = MemberStatus.stuck ∧
        ∀ tk ident, CollabEvent.acceptPatch tk ident ∉ (memberRun target t env).2) ∧
    (∀ l, fetchedInvites env t = some l →
      l.find? (fun x => decide (inviteRepoName x = some target)) = none →
      (memberRun target t env).1 = MemberStatus.stuck ∧
        ∀ tk ident, CollabEvent.acceptPatch tk ident ∉ (memberRun target t env).2) := by
  unfold memberRun fetchedInvites
  rcases hres : (GitHubClient.call "GET" fun _ => env.invListResp t).2 with _ | b
  · dsimp only
    simp [isPatchCall]
  · rcases b with _ | l | _
    · dsimp only
      simp [isPatchCall]
    · dsimp only
      by_cases hl : l = []
      · simp [hl, isPatchCall]
      · rw [if_neg hl, if_neg hl]
        rcases hfind : l.find? (fun x => decide (inviteRepoName x = some target))
          with _ | inv
        · dsimp only
          simp only [hl, hfind, isPatchCall, List.countP_cons, List.countP_nil]
          refine ⟨by simp, by simp, ?_, by simp, ?_⟩
          · intro l1 inv1 heq
            rw [Option.some.injEq] at heq
            subst heq
            rw [hfind]
            simp
          · intro l1 heq hf
            simp [List.mem_cons]
        · dsimp only
          rcases hpatch : (GitHubClient.call "PATCH"
              fun _ => env.acceptResp t inv.id).2 with _ | body
          all_goals
            dsimp only
            simp only [hl, hfind, hpatch, isPatchCall]
            refine ⟨by first | simp | trivial, by first | simp | trivial, ?_,
              by first | simp | trivial, ?_⟩
          · intro l1 inv1 heq hf
            rw [Option.some.injEq] at heq
            subst heq
            rw [hfind, Option.some.injEq] at hf
            subst hf
            simp [hpatch]
          · intro l1 heq hf
            rw [Option.some.injEq] at heq
            subst heq
            rw [hfind] at hf
            cases hf
          · intro l1 inv1 heq hf
            rw [Option.some.injEq] at heq
            subst heq
            rw [hfind, Option.some.injEq] at hf
            subst hf
            simp [hpatch]
          · intro l1 heq hf
            rw [Option.some.injEq] at heq
            subst heq
            rw [hfind] at hf
            cases hf
    · dsimp only
      simp [isPatchCall]

/-- Witness for C8: with one matching invitation (id 9) in the member's
list and a successful PATCH, the accept phase PATCHes exactly that
invitation and marks the member accepted. -/
theorem accept_phase_member_spec_witness :
    CollabEvent.acceptPatch "t1" (some 9) ∈ (memberRun "o/r" "t1" cenvW).2 ∧
    (memberRun "o/r" "t1" cenvW).1 = MemberStatus.accepted := by
  have h := (accept_phase_member_spec "o/r" "t1" cenvW).2.2.1
    [⟨some ⟨some "o/r"⟩, some 9⟩] ⟨some ⟨some "o/r"⟩, some 9⟩ (by decide) (by decide)
  exact ⟨h.1, h.2.mpr (by decide)⟩

theorem decodeSextet_sextetChar : ∀ n, n < 64 → decodeSextet (sextetChar n) = some n := by
  decide

theorem sextetChar_ne_pad : ∀ n, n < 64 → sextetChar n ≠ '=' := by
  decide

theorem b64_roundtrip (bs : List Nat) (hv : ∀ b ∈ bs, b < 256) :
    b64decodeChars (b64encodeBytes bs) = some bs := by
  suffices main : ∀ n (bs : List Nat), bs.length ≤ n → (∀ b ∈ bs, b < 256) →
      b64decodeChars (b64encodeBytes bs) = some bs from
    main bs.length bs le_rfl hv
  intro n
  induction n with
  | zero =>
      intro bs hl hv2
      have : bs = [] := List.length_eq_zero.mp (Nat.le_zero.mp hl)
      subst this
      rfl
  | succ n ih =>
      intro bs hl hv2
      match bs with
      | [] => rfl
      | [a] =>
          have ha : a < 256 := hv2 a (by simp)
          show b64decodeChars
            [sextetChar (a / 4), sextetChar (a % 4 * 16), '=', '='] = some [a]
          rw [b64decodeChars]
          rw [if_pos rfl, if_pos rfl]
          rw [decodeSextet_sextetChar (a / 4) (by omega),
            decodeSextet_sextetChar (a % 4 * 16) (by omega)]
          dsimp only
          rw [if_pos rfl]
          congr 1
          have : a / 4 * 4 + a % 4 * 16 / 16 = a := by omega
          rw [this]
      | [a, b] =>
          have ha : a < 256 := hv2 a (by simp)
          have hb : b < 256 := hv2 b (by simp)
          show b64decodeChars [sextetChar (a / 4), sextetChar (a % 4 * 16 + b / 16),
            sextetChar (b % 16 * 4), '='] = some [a, b]
          rw [b64decodeChars]
          rw [if_pos rfl, if_neg (sextetChar_ne_pad (b % 16 * 4) (by omega))]
          rw [decodeSextet_sextetChar (a / 4) (by omega),
            decodeSextet_sextetChar (a % 4 * 16 + b / 16) (by omega),
            decodeSextet_sextetChar (b % 16 * 4) (by omega)]
          dsimp only
          rw [if_pos rfl]
          congr 1
          have h1 : a / 4 * 4 + (a % 4 * 16 + b / 16) / 16 = a := by omega
          have h2 : (a % 4 * 16 + b / 16) % 16 * 16 + b % 16 * 4 / 4 = b := by omega
          rw [h1, h2]
      | a :: b :: c :: rest =>
          have ha : a < 256 := hv2 a (by simp)
          have hb : b < 256 := hv2 b (by simp)
          have hc : c < 256 := hv2 c (by simp)
          have hrest : ∀ x ∈ rest, x < 256 := fun x hx => hv2 x (by simp [hx])
          have hlen : rest.length ≤ n := by
            simp only [List.length_cons] at hl
            omega
          have ihr := ih rest hlen hrest
          show b64decodeChars (sextetChar (a / 4) :: sextetChar (a % 4 * 16 + b / 16) ::
            sextetChar (b % 16 * 4 + c / 64) :: sextetChar (c % 64) ::
              b64encodeBytes rest) = some (a :: b :: c :: rest)
          rw [b64decodeChars]
          rw [if_neg (sextetChar_ne_pad (c % 64) (by omega))]
          rw [decodeSextet_sextetChar (a / 4) (by omega),
            decodeSextet_sextetChar (a % 4 * 16 + b / 16) (by omega),
            decodeSextet_sextetChar (b % 16 * 4 + c / 64) (by omega),
            decodeSextet_sextetChar (c % 64) (by omega), ihr]
          dsimp only
          congr 1
          have h1 : a / 4 * 4 + (a % 4 * 16 + b / 16) / 16 = a := by omega
          have h2 : (a % 4 * 16 + b / 16) % 16 * 16 + (b % 16 * 4 + c / 64) / 4 = b := by
            omega
          have h3 : (b % 16 * 4 + c / 64) % 4 * 64 + c % 64 = c := by omega
          rw [h1, h2, h3]

theorem utf8Bytes_lt (s : String) : ∀ b ∈ utf8Bytes s, b < 256 := by
  intro b hb
  rw [utf8Bytes, List.mem_flatMap] at hb
  obtain ⟨c, hc, hb⟩ := hb
  have hcv : c.toNat < 1114112 := by
    rcases c.valid with h | ⟨h1, h2⟩
    · exact lt_trans h (by norm_num)
    · exact h2
  simp only [utf8EncodeCharNat] at hb
  by_cases h1 : c.toNat < 128
  · rw [if_pos h1] at hb
    fin_cases hb
    omega
  · rw [if_neg h1] at hb
    by_cases h2 : c.toNat < 2048
    · rw [if_pos h2] at hb
      fin_cases hb <;> omega
    · rw [if_neg h2] at hb
      by_cases h3 : c.toNat < 65536
      · rw [if_pos h3] at hb
        fin_cases hb <;> omega
      · rw [if_neg h3] at hb
        fin_cases hb <;> omega

theorem b64_roundtrip_str (bs : List Nat) (hv : ∀ b ∈ bs, b < 256) :
    b64decodeStr (b64encodeStr bs) = some bs := by
  show b64decodeChars (b64encodeBytes bs) = some bs
  exact b64_roundtrip bs hv

/-- Concrete sealed-box instance for the C9 witness: the ciphertext is the
randomness byte prepended to the plaintext, decryption drops it, and every
private key matches every public key. -/
def toyScheme : SealedBoxScheme where
  encrypt := fun _ r m => r % 256 :: m
  decrypt := fun _ c => c.tail?
  keyPair := fun _ _ => True
  encrypt_bytes := by
    intro pk r m hm b hb
    rcases List.mem_cons.mp hb with rfl | hb2
    · omega
    · exact hm b hb2
  encrypt_decrypt := by
    intro sk pk r m _
    rfl

/-- C9: `encrypt_secret` is a sealed-box encryption through base64 — for
any sealed-box scheme, key pair and byte-valued public key, the base64
ciphertext it produces decodes to a byte string that the matching private
key decrypts back to exactly the UTF-8 encoding of the original plaintext
(round-trip law); and two calls with different per-call randomness may
yield different base64 ciphertexts for the same plaintext and key. -/
theorem seal_roundtrip :
    (∀ (S : SealedBoxScheme) (sk pkBytes : List Nat) (r : Nat) (v ct : String),
        S.keyPair sk pkBytes → (∀ b ∈ pkBytes, b < 256) →
        encrypt_secret S r (b64encodeStr pkBytes) v = some ct →
        ∃ cbytes, b64decodeStr ct = some cbytes ∧
          S.decrypt sk cbytes = some (utf8Bytes v)) ∧
    (∃ (S : SealedBoxScheme) (sk pk : List Nat) (r₁ r₂ : Nat) (v : String),
        S.keyPair sk pk ∧ (∀ b ∈ pk, b < 256) ∧
        encrypt_secret S r₁ (b64encodeStr pk) v ≠
          encrypt_secret S r₂ (b64encodeStr pk) v) := by
  constructor
  · intro S sk pkBytes r v ct hkp hpk henc
    unfold encrypt_secret at henc
    rw [b64_roundtrip_str pkBytes hpk] at henc
    dsimp only at henc
    rw [Option.some.injEq] at henc
    subst henc
    refine ⟨S.encrypt pkBytes r (utf8Bytes v), ?_, ?_⟩
    · exact b64_roundtrip_str _ (S.encrypt_bytes pkBytes r _ (utf8Bytes_lt v))
    · exact S.encrypt_decrypt sk pkBytes r _ hkp
  · refine ⟨toyScheme, [], [5], 0, 1, "k", trivial, by decide, by decide⟩

/-- Witness for C9: the round-trip law applied at the concrete toy scheme —
the ciphertext of "k" sealed with randomness 7 against the one-byte public
key [5] decodes and decrypts back to the UTF-8 bytes of "k". -/
theorem seal_roundtrip_witness :
    ∃ cbytes, b64decodeStr "B2s=" = some cbytes ∧
      toyScheme.decrypt [] cbytes = some (utf8Bytes "k") :=
  seal_roundtrip.1 toyScheme [] [5] 7 "k" "B2s=" trivial (by decide) (by decide)
